import Mathlib

/-!
Shallow embedding of `src/imbu/engine/fluent_api.py` (the Imbu web API
module) and verification of its specification claims.

The module glues an external NLP classification library (htmresearch) to a
small HTTP surface.  External collaborators (the engine implementations,
`readCSV`, `web.py`) are modelled at their interface boundary:

* `Engine` is the trained engine's query capability (`queryModel` with
  `preprocess=False`); scores are modelled as integers since only their
  order matters at this layer.
* `Ext` packages the behaviour of the external library calls made during
  `createModel` (factory construction including environment credential
  lookup, `prepData`, `encodeSamples`, `trainModel`), each of which may
  raise; `ExtCall` records the calls actually performed, in order.
* Python `dict`/`OrderedDict` values are association lists
  (`List (String × α)`); `odInsert` implements `d[k] = v` (update in
  place keeps the original position, a fresh key appends) and `odFind?`
  implements lookup.
* Python exceptions are `Except PyErr`; a raised exception aborts the
  surrounding computation exactly as in the source.
-/

set_option autoImplicit false

namespace Imbu

/-- Python exception kinds that the embedded code can raise. -/
inductive PyErr where
  | valueError
  | keyError
  | typeError
  | other (msg : String)
deriving DecidableEq, Repr

/-- One row of the sample data, as produced by the external `readCSV` and
iterated by `csvdata.values()`: `text` is `sample[0]`, `sid` is
`sample[2]` (the ID column).  The label field `sample[1]` is unused by
this module and omitted. -/
structure CsvSample where
  text : String
  sid : String
deriving DecidableEq, Repr

/-- Lookup in a Python dict modelled as an association list: `m[k]`,
returning `none` where Python raises `KeyError`. -/
def odFind? {α : Type} : List (String × α) → String → Option α
  | [], _ => none
  | p :: tl, k => if p.1 == k then some p.2 else odFind? tl k

/-- Assignment `m[k] = v` on an `OrderedDict`: an existing key keeps its
original position and gets the new value; a fresh key is appended. -/
def odInsert {α : Type} (m : List (String × α)) (k : String) (v : α) :
    List (String × α) :=
  if m.any (fun p => p.1 == k) then
    m.map (fun p => if p.1 == k then (k, v) else p)
  else
    m ++ [(k, v)]

/-- A trained engine's query capability: `queryModel(text, preprocess=False)`
returns `(sample id, distance)` pairs.  The engine is external; its output
is constrained only by hypotheses in the theorems below. -/
structure Engine where
  queryModel : String → List (String × Int)

/-- Behaviour of the external library calls performed by `createModel`.
`construct name` covers the `modelFactory(...)` call for `name`, including
the `os.environ` credential lookups, so it may fail; `prepData`,
`encodeSamples` and `trainModel` are the corresponding engine methods.
`constructHTM`/`htmNumRecords` cover the HTMNetwork branch (construction
with network config, and the token count driving its training). -/
structure Ext where
  construct : String → Except PyErr Engine
  prepData : List CsvSample → Except PyErr (List String)
  encodeSamples : List String → Except PyErr Unit
  trainModel : Nat → Except PyErr Unit
  constructHTM : Except PyErr Engine
  htmNumRecords : Nat

/-- A record of one external-library call performed by `createModel`,
with the argument it received. -/
inductive ExtCall where
  | construct (modelName : String)
  | constructHTM
  | prepData (csvdata : List CsvSample)
  | encodeSamples (samples : List String)
  | trainModel (i : Nat)
  | trainModelIterations (iterations : Nat)
deriving DecidableEq, Repr

/-- Keys of `_MODEL_MAPPING` (the static model configuration table).
`Keywords` and `HTMNetwork` are commented out in the source. -/
def MODEL_MAPPING : List String :=
  ["CioWordFingerprint", "CioDocumentFingerprint", "CioWindows"]

/-- The `_DEFAULT_MODEL_NAME` used when the route omits the model name. -/
def DEFAULT_MODEL_NAME : String := "CioWindows"

/-- The training loop `for i in xrange(len(samples)): model.trainModel(i)`,
started at `lo` with `k` iterations remaining: stops at the first raised
exception, returning the calls performed and the outcome. -/
def trainRange (ext : Ext) : Nat → Nat → List ExtCall × Except PyErr Unit
  | _, 0 => ([], .ok ())
  | lo, k + 1 =>
    match ext.trainModel lo with
    | .error e => ([ExtCall.trainModel lo], .error e)
    | .ok _ =>
      let rest := trainRange ext (lo + 1) k
      (ExtCall.trainModel lo :: rest.1, rest.2)

/-- Embeds `createModel(modelName, dataPath, csvdata)`: resolve the name in
`_MODEL_MAPPING` (raising `ValueError` when absent), then construct and
train the model.  The `HTMNetwork` branch of the source is unreachable
(the mapping has no such key, so the `ValueError` fires first); it is
embedded coarsely as construction plus one iteration-count training call.
Returns the external calls performed and the outcome. -/
def createModel (ext : Ext) (modelName : String) (csvdata : List CsvSample) :
    List ExtCall × Except PyErr Engine :=
  if MODEL_MAPPING.contains modelName then
    if modelName == "HTMNetwork" then
      match ext.constructHTM with
      | .error e => ([ExtCall.constructHTM], .error e)
      | .ok model =>
        ([ExtCall.constructHTM,
          ExtCall.trainModelIterations ext.htmNumRecords], .ok model)
    else
      match ext.construct modelName with
      | .error e => ([ExtCall.construct modelName], .error e)
      | .ok model =>
        match ext.prepData csvdata with
        | .error e =>
          ([ExtCall.construct modelName, ExtCall.prepData csvdata], .error e)
        | .ok samples =>
          match ext.encodeSamples samples with
          | .error e =>
            ([ExtCall.construct modelName, ExtCall.prepData csvdata,
              ExtCall.encodeSamples samples], .error e)
          | .ok _ =>
            let tr := trainRange ext 0 samples.length
            (ExtCall.construct modelName :: ExtCall.prepData csvdata ::
              ExtCall.encodeSamples samples :: tr.1,
             tr.2.map (fun _ => model))
  else
    ([], .error PyErr.valueError)

/-- The corpus-loading loop of `FluentWrapper.__init__`:
`for sample in csvdata.values(): self.samples[sample[2]] = sample[0]`
over an `OrderedDict`. -/
def buildSamples (csvdata : List CsvSample) : List (String × String) :=
  csvdata.foldl (fun m r => odInsert m r.sid r.text) []

/-- The registry comprehension of `FluentWrapper.__init__`:
`{modelName: createModel(...) for modelName, _ in _MODEL_MAPPING.iteritems()}`.
The first raised exception aborts the whole comprehension. -/
def buildModels (ext : Ext) (csvdata : List CsvSample) :
    List String → Except PyErr (List (String × Engine))
  | [] => .ok []
  | n :: tl =>
    match (createModel ext n csvdata).2 with
    | .error e => .error e
    | .ok engine =>
      match buildModels ext csvdata tl with
      | .error e => .error e
      | .ok rest => .ok ((n, engine) :: rest)

/-- The in-memory state built by `FluentWrapper.__init__`: the ordered
`samples` mapping (id to text) and the `models` registry. -/
structure FluentWrapper where
  samples : List (String × String)
  models : List (String × Engine)

/-- Embeds `FluentWrapper.__init__(dataPath)`: build the samples mapping,
then build every model; any exception propagates out of the constructor. -/
def initFluentWrapper (ext : Ext) (csvdata : List CsvSample) :
    Except PyErr FluentWrapper :=
  match buildModels ext csvdata MODEL_MAPPING with
  | .error e => .error e
  | .ok ms => .ok { samples := buildSamples csvdata, models := ms }

/-- One element of the response list: `{"id": sID, "text": ..., "score": ...}`. -/
structure QueryResult where
  sid : String
  text : String
  score : Int
deriving DecidableEq, Repr

/-- The result-building loop of `FluentWrapper.query`: for each
`(sID, dist)` pair append `{"id": sID, "text": self.samples[sID],
"score": dist.item()}`; a missing id raises `KeyError`. -/
def lookupSamples (samples : List (String × String)) :
    List (String × Int) → Except PyErr (List QueryResult)
  | [] => .ok []
  | p :: tl =>
    match odFind? samples p.1 with
    | none => .error PyErr.keyError
    | some t =>
      match lookupSamples samples tl with
      | .error e => .error e
      | .ok rest => .ok ({ sid := p.1, text := t, score := p.2 } :: rest)

/-- Embeds `FluentWrapper.query(model, text)`.  Falsy (empty) text returns
`[]` without touching the registry; otherwise `self.models[model]`
(KeyError when absent) and `queryModel(text, preprocess=False)` run.  The
first component records the `queryModel` invocations as
`(model, text)` pairs. -/
def FluentWrapper.query (w : FluentWrapper) (model : String) (text : String) :
    List (String × String) × Except PyErr (List QueryResult) :=
  if text == "" then ([], .ok [])
  else
    match odFind? w.models model with
    | none => ([], .error PyErr.keyError)
    | some engine =>
      ([(model, text)], lookupSamples w.samples (engine.queryModel text))

/-- The raw request body as seen by `web.data()`: either a string (the
usual case; `""` for an empty body) or a non-string value, whose Python
truthiness is carried explicitly. -/
inductive Body where
  | ofString (s : String)
  | nonString (truthy : Bool)
deriving DecidableEq, Repr

/-- Python truthiness of the request body (`if data:`). -/
def Body.isTruthy : Body → Bool
  | .ofString s => s != ""
  | .nonString t => t

/-- Outcome of an API handler: a JSON list (200), an empty body (200, the
OPTIONS success case), `web.notfound` (404), `web.badrequest` (400), or an
unhandled Python exception (500). -/
inductive HttpOutcome where
  | ok (body : List QueryResult)
  | emptyOk
  | notfound
  | badrequest
  | pyError (e : PyErr)
deriving DecidableEq, Repr

/-- Embeds `FluentAPIHandler.POST(modelName)`: unknown model name raises
`web.notfound` before the body is read; a truthy string body runs the
query (whose exceptions propagate); a truthy non-string body raises
`web.badrequest`; a falsy body returns every sample with score 0, in
corpus order.  The first component records the `queryModel` invocations. -/
def FluentAPIHandler.POST (w : FluentWrapper) (modelName : String)
    (body : Body) : List (String × String) × HttpOutcome :=
  if (odFind? w.models modelName).isNone then ([], .notfound)
  else if body.isTruthy then
    match body with
    | .ofString s =>
      match w.query modelName s with
      | (calls, .ok rs) => (calls, .ok rs)
      | (calls, .error e) => (calls, .pyError e)
    | .nonString _ => ([], .badrequest)
  else
    ([], .ok (w.samples.map (fun p => { sid := p.1, text := p.2, score := 0 })))

/-- Python membership test `modelName in g_fluent` from
`FluentAPIHandler.OPTIONS`.  The operand is the `FluentWrapper` instance
itself (not its `models` dict); `FluentWrapper` defines none of
`__contains__`, `__iter__` or `__getitem__`, so the `in` operator raises
`TypeError` for every argument. -/
def fluentWrapperContains (_w : FluentWrapper) (_modelName : String) :
    Except PyErr Bool :=
  .error PyErr.typeError

/-- Embeds `FluentAPIHandler.OPTIONS(modelName)`:
`if modelName not in g_fluent: raise web.notfound(...)`, else an empty
body. -/
def FluentAPIHandler.OPTIONS (w : FluentWrapper) (modelName : String) :
    HttpOutcome :=
  match fluentWrapperContains w modelName with
  | .error e => .pyError e
  | .ok b => if b then .emptyOk else .notfound

/-- Claim-side helper (for the duplicate-id claim): the text of the last
row bearing id `j`, scanning the source rows in order. -/
def lastTextFor (csvdata : List CsvSample) (j : String) : Option String :=
  csvdata.foldl (fun acc r => if r.sid == j then some r.text else acc) none

/-- Claim-side helper (for the corpus-listing claim): the ids of the
source rows in first-seen order, each id once. -/
def firstSeenKeys (csvdata : List CsvSample) : List String :=
  csvdata.foldl (fun acc r => if acc.contains r.sid then acc else acc ++ [r.sid]) []

/-- Claim-side helper: left-biased choice on `Option`, used to state the
accumulator lemmas about the corpus-loading fold. -/
def optOr {α : Type} : Option α → Option α → Option α
  | some a, _ => some a
  | none, b => b

/-- Concrete engine used to instantiate the theorems: returns the two
corpus ids in descending score order for any query text. -/
def witEngine : Engine :=
  { queryModel := fun _ => [("b", 5), ("a", 3)] }

/-- Concrete external-library behaviour in which every call succeeds. -/
def witExt : Ext :=
  { construct := fun _ => .ok witEngine
    prepData := fun rows => .ok (rows.map (fun r => r.text))
    encodeSamples := fun _ => .ok ()
    trainModel := fun _ => .ok ()
    constructHTM := .ok witEngine
    htmNumRecords := 0 }

/-- Concrete external-library behaviour in which constructing the
`CioWindows` model raises. -/
def witExtFail : Ext :=
  { witExt with
    construct := fun n =>
      if n == "CioWindows" then .error (PyErr.other "construction failed")
      else .ok witEngine }

/-- Concrete two-row corpus used to instantiate the theorems. -/
def witRows : List CsvSample :=
  [{ text := "the cat sat", sid := "a" }, { text := "the dog ran", sid := "b" }]

/-- Concrete wrapper state: the corpus of `witRows` and every configured
model backed by `witEngine`. -/
def witW : FluentWrapper :=
  { samples := [("a", "the cat sat"), ("b", "the dog ran")]
    models := MODEL_MAPPING.map (fun n => (n, witEngine)) }

/-- Concrete corpus rows with a duplicated id `x`. -/
def witDupRows : List CsvSample :=
  [{ text := "first x text", sid := "x" }, { text := "y text", sid := "y" },
    { text := "second x text", sid := "x" }]

/-- C3: the spec says OPTIONS answers 404 for unknown model names and an
empty 200 with CORS headers for known ones; the code instead tests
membership against the `FluentWrapper` object itself (`modelName not in
g_fluent`), which raises `TypeError` — an unhandled 500 — for every model
name, known or not. -/
theorem options_membership_raises_typeerror (w : FluentWrapper)
    (modelName : String) :
    FluentAPIHandler.OPTIONS w modelName = HttpOutcome.pyError PyErr.typeError :=
  rfl

/-- C4: a POST naming a model absent from the registry yields
`web.notfound` and performs no engine query (the recorded `queryModel`
call list is empty); the wrapper state is untouched. -/
theorem post_unknown_model_notfound (w : FluentWrapper) (modelName : String)
    (body : Body) (h : odFind? w.models modelName = none) :
    FluentAPIHandler.POST w modelName body = ([], HttpOutcome.notfound) := by
  unfold FluentAPIHandler.POST
  simp [h]

/-- Witness for C4 at a concrete wrapper and model name. -/
theorem post_unknown_model_notfound_witness :
    odFind? witW.models "NoSuchModel" = none ∧
      FluentAPIHandler.POST witW "NoSuchModel" (Body.ofString "hello") =
        ([], HttpOutcome.notfound) :=
  ⟨rfl, post_unknown_model_notfound witW "NoSuchModel" (Body.ofString "hello") rfl⟩

/-- C7: a falsy (empty) query text makes `FluentWrapper.query` return the
empty list immediately; no `queryModel` invocation is recorded, so empty
text is never sent to the engine. -/
theorem query_empty_text_no_engine_call (w : FluentWrapper) (model : String)
    (_hm : (odFind? w.models model).isSome = true) :
    w.query model "" = ([], Except.ok []) :=
  rfl

/-- Witness for C7 at a concrete wrapper and registered model. -/
theorem query_empty_text_no_engine_call_witness :
    (odFind? witW.models "CioWindows").isSome = true ∧
      witW.query "CioWindows" "" = ([], Except.ok []) :=
  ⟨rfl, query_empty_text_no_engine_call witW "CioWindows" rfl⟩

/-- C8: a model name with no entry in `_MODEL_MAPPING` makes `createModel`
raise `ValueError` before any external call is performed. -/
theorem createModel_unknown_name_valueerror (ext : Ext) (modelName : String)
    (csvdata : List CsvSample)
    (h : MODEL_MAPPING.contains modelName = false) :
    createModel ext modelName csvdata = ([], Except.error PyErr.valueError) := by
  unfold createModel
  rw [h]
  rfl

/-- Witness for C8 at the commented-out model name `Keywords`. -/
theorem createModel_unknown_name_valueerror_witness :
    MODEL_MAPPING.contains "Keywords" = false ∧
      createModel witExt "Keywords" witRows = ([], Except.error PyErr.valueError) :=
  ⟨by decide, createModel_unknown_name_valueerror witExt "Keywords" witRows (by decide)⟩

/-- C5 counterexample: with a model name absent from the registry, a
truthy non-string body is answered with `web.notfound`, not
`web.badrequest` — the 404 check precedes the body-type check, so the
claim as stated (400 for every non-string body) fails. -/
theorem post_nonstring_unknown_model_not_badrequest :
    (FluentAPIHandler.POST witW "NoSuchModel" (Body.nonString true)).2 =
        HttpOutcome.notfound ∧
      (FluentAPIHandler.POST witW "NoSuchModel" (Body.nonString true)).2 ≠
        HttpOutcome.badrequest := by
  exact ⟨rfl, by decide⟩

/-- C5 amended: for a model name present in the registry, a truthy
non-string body is answered with `web.badrequest` and no engine query is
performed. -/
theorem post_nonstring_badrequest (w : FluentWrapper) (modelName : String)
    (hm : (odFind? w.models modelName).isSome = true) :
    FluentAPIHandler.POST w modelName (Body.nonString true) =
      ([], HttpOutcome.badrequest) := by
  obtain ⟨e, he⟩ := Option.isSome_iff_exists.mp hm
  simp [FluentAPIHandler.POST, he, Body.isTruthy]

/-- Witness for the amended C5 at a concrete wrapper and registered model. -/
theorem post_nonstring_badrequest_witness :
    (odFind? witW.models "CioWindows").isSome = true ∧
      FluentAPIHandler.POST witW "CioWindows" (Body.nonString true) =
        ([], HttpOutcome.badrequest) :=
  ⟨rfl, post_nonstring_badrequest witW "CioWindows" rfl⟩

/-- Helper: when the result-building loop of `query` succeeds, the scores
are exactly the engine's distances in the engine's order, and every result
carries a sample id whose stored text it reproduces verbatim. -/
theorem lookupSamples_ok (samples : List (String × String)) :
    ∀ (sd : List (String × Int)) (res : List QueryResult),
      lookupSamples samples sd = Except.ok res →
      res.map QueryResult.score = sd.map Prod.snd ∧
        ∀ r ∈ res, odFind? samples r.sid = some r.text := by
  intro sd
  induction sd with
  | nil =>
    intro res h
    obtain rfl : ([] : List QueryResult) = res := by
      simpa [lookupSamples] using h
    simp
  | cons p tl ih =>
    intro res h
    unfold lookupSamples at h
    cases hf : odFind? samples p.1 with
    | none => rw [hf] at h; exact absurd h (by simp)
    | some t =>
      rw [hf] at h
      cases hr : lookupSamples samples tl with
      | error e => rw [hr] at h; exact absurd h (by simp)
      | ok rest =>
        rw [hr] at h
        obtain rfl : ({ sid := p.1, text := t, score := p.2 } :: rest) = res := by
          simpa using h
        obtain ⟨hscores, hmatch⟩ := ih rest hr
        refine ⟨by simpa using hscores, ?_⟩
        intro r hr'
        rcases List.mem_cons.mp hr' with rfl | hmem
        · simpa using hf
        · exact hmatch r hmem

/-- C1: for non-empty query text and a model present in the registry,
whenever the engine returns its candidates in non-increasing score order,
the list `FluentWrapper.query` returns (and POST passes through verbatim)
is sorted by non-increasing score, every result id is a key of the
samples mapping, and every result text is exactly the stored text for
that id. -/
theorem query_result_sorted_and_faithful (w : FluentWrapper)
    (modelName text : String) (engine : Engine)
    (calls : List (String × String)) (res : List QueryResult)
    (hne : text ≠ "")
    (hm : odFind? w.models modelName = some engine)
    (hsorted : List.Sorted (· ≥ ·) ((engine.queryModel text).map Prod.snd))
    (hq : w.query modelName text = (calls, Except.ok res)) :
    List.Sorted (· ≥ ·) (res.map QueryResult.score) ∧
      (∀ r ∈ res, odFind? w.samples r.sid = some r.text) ∧
      FluentAPIHandler.POST w modelName (Body.ofString text) =
        (calls, HttpOutcome.ok res) := by
  have hbeq : (text == "") = false := by
    simpa using hne
  unfold FluentWrapper.query at hq
  rw [hbeq] at hq
  simp only [Bool.false_eq_true, if_false, hm] at hq
  obtain ⟨hcalls, hlook⟩ : [(modelName, text)] = calls ∧
      lookupSamples w.samples (engine.queryModel text) = Except.ok res := by
    exact ⟨congrArg Prod.fst hq, congrArg Prod.snd hq⟩
  obtain ⟨hscores, hmatch⟩ := lookupSamples_ok w.samples _ res hlook
  refine ⟨hscores ▸ hsorted, hmatch, ?_⟩
  unfold FluentAPIHandler.POST
  have hnone : (odFind? w.models modelName).isNone = false := by
    rw [hm]; rfl
  rw [hnone]
  have htruthy : (Body.ofString text).isTruthy = true := by
    simpa [Body.isTruthy] using hne
  rw [if_neg (by simp), if_pos (by simpa using htruthy)]
  have hq' : w.query modelName text = (calls, Except.ok res) := by
    unfold FluentWrapper.query
    rw [hbeq]
    simp only [Bool.false_eq_true, if_false, hm]
    rw [← hcalls, hlook]
  simp only [hq']

/-- Witness for C1: concrete wrapper, registered model, engine output
sorted 5 then 3, with both result ids in the corpus. -/
theorem query_result_sorted_and_faithful_witness :
    ("cat" ≠ "") ∧
      odFind? witW.models "CioWindows" = some witEngine ∧
      List.Sorted (· ≥ ·) ((witEngine.queryModel "cat").map Prod.snd) ∧
      witW.query "CioWindows" "cat" =
        ([("CioWindows", "cat")],
          Except.ok [{ sid := "b", text := "the dog ran", score := 5 },
            { sid := "a", text := "the cat sat", score := 3 }]) ∧
      (List.Sorted (· ≥ ·)
          (([{ sid := "b", text := "the dog ran", score := 5 },
              { sid := "a", text := "the cat sat", score := 3 }] :
            List QueryResult).map QueryResult.score) ∧
        (∀ r ∈ ([{ sid := "b", text := "the dog ran", score := 5 },
              { sid := "a", text := "the cat sat", score := 3 }] :
            List QueryResult), odFind? witW.samples r.sid = some r.text) ∧
        FluentAPIHandler.POST witW "CioWindows" (Body.ofString "cat") =
          ([("CioWindows", "cat")],
            HttpOutcome.ok [{ sid := "b", text := "the dog ran", score := 5 },
              { sid := "a", text := "the cat sat", score := 3 }])) :=
  ⟨by decide, rfl, by decide, rfl,
    query_result_sorted_and_faithful witW "CioWindows" "cat" witEngine
      [("CioWindows", "cat")]
      [{ sid := "b", text := "the dog ran", score := 5 },
        { sid := "a", text := "the cat sat", score := 3 }]
      (by decide) rfl (by decide) rfl⟩

/-- Helper: the registry comprehension fails outright when `createModel`
fails for any name in the list it ranges over. -/
theorem buildModels_error_of_mem (ext : Ext) (csvdata : List CsvSample) :
    ∀ (names : List String) (n : String), n ∈ names →
      (∃ e, (createModel ext n csvdata).2 = Except.error e) →
      ∃ e, buildModels ext csvdata names = Except.error e := by
  intro names
  induction names with
  | nil => intro n hn; exact absurd hn (List.not_mem_nil n)
  | cons m tl ih =>
    intro n hn ⟨e, he⟩
    rcases List.mem_cons.mp hn with rfl | hmem
    · refine ⟨e, ?_⟩
      unfold buildModels
      rw [he]
    · cases hc : (createModel ext m csvdata).2 with
      | error e' => exact ⟨e', by unfold buildModels; rw [hc]⟩
      | ok engine =>
        obtain ⟨e'', he''⟩ := ih n hmem ⟨e, he⟩
        refine ⟨e'', ?_⟩
        unfold buildModels
        rw [hc, he'']

/-- C6: registry construction is all-or-nothing — if `createModel` raises
for any configured model name, `FluentWrapper.__init__` propagates the
exception, so no wrapper (and hence no queryable model) ever exists. -/
theorem init_all_or_nothing (ext : Ext) (csvdata : List CsvSample) (n : String)
    (hn : n ∈ MODEL_MAPPING)
    (he : ∃ e, (createModel ext n csvdata).2 = Except.error e) :
    ∃ e, initFluentWrapper ext csvdata = Except.error e := by
  obtain ⟨e, hbm⟩ := buildModels_error_of_mem ext csvdata MODEL_MAPPING n hn he
  refine ⟨e, ?_⟩
  unfold initFluentWrapper
  rw [hbm]

/-- Witness for C6: a failure injected into the `CioWindows` construction
aborts the whole constructor. -/
theorem init_all_or_nothing_witness :
    "CioWindows" ∈ MODEL_MAPPING ∧
      (∃ e, (createModel witExtFail "CioWindows" witRows).2 = Except.error e) ∧
      ∃ e, initFluentWrapper witExtFail witRows = Except.error e :=
  ⟨by decide, ⟨PyErr.other "construction failed", rfl⟩,
    init_all_or_nothing witExtFail witRows "CioWindows" (by decide)
      ⟨PyErr.other "construction failed", rfl⟩⟩

/-- Helper: a successful run of the training loop starting at `lo` with
`k` iterations left performs exactly the calls
`trainModel lo, trainModel (lo+1), ..., trainModel (lo+k-1)` in order. -/
theorem trainRange_ok_calls (ext : Ext) :
    ∀ (k lo : Nat) (calls : List ExtCall),
      trainRange ext lo k = (calls, Except.ok ()) →
      calls = (List.range' lo k).map ExtCall.trainModel := by
  intro k
  induction k with
  | zero =>
    intro lo calls h
    obtain rfl : ([] : List ExtCall) = calls := congrArg Prod.fst h
    simp
  | succ k ih =>
    intro lo calls h
    unfold trainRange at h
    cases ht : ext.trainModel lo with
    | error e =>
      rw [ht] at h
      exact absurd (congrArg Prod.snd h) (by simp)
    | ok u =>
      rw [ht] at h
      have hrest : (trainRange ext (lo + 1) k).2 = Except.ok () :=
        congrArg Prod.snd h
      have hcalls : ExtCall.trainModel lo :: (trainRange ext (lo + 1) k).1 = calls :=
        congrArg Prod.fst h
      have := ih (lo + 1) (trainRange ext (lo + 1) k).1
        (Prod.ext rfl hrest)
      rw [← hcalls, this]
      simp [List.range'_succ]

/-- C9: every model `createModel` actually builds (the unreachable
HTMNetwork branch aside) is produced by constructing the engine, handing
the full corpus to `prepData`, encoding the prepared samples, and then
calling `trainModel` once per prepared sample at indices 0 up to
`len(samples) - 1`, in increasing order. -/
theorem createModel_trains_in_order (ext : Ext) (modelName : String)
    (csvdata : List CsvSample) (calls : List ExtCall) (engine : Engine)
    (hhtm : modelName ≠ "HTMNetwork")
    (h : createModel ext modelName csvdata = (calls, Except.ok engine)) :
    ∃ samples, ext.prepData csvdata = Except.ok samples ∧
      calls = ExtCall.construct modelName :: ExtCall.prepData csvdata ::
        ExtCall.encodeSamples samples ::
        (List.range samples.length).map ExtCall.trainModel := by
  unfold createModel at h
  cases hmap : MODEL_MAPPING.contains modelName with
  | false =>
    rw [hmap] at h
    exact absurd (congrArg Prod.snd h) (by simp)
  | true =>
    have hbeq : (modelName == "HTMNetwork") = false := by simpa using hhtm
    simp only [hmap, hbeq, Bool.false_eq_true, if_false, if_true] at h
    cases hc : ext.construct modelName with
    | error e => simp [hc] at h
    | ok model =>
      simp only [hc] at h
      cases hp : ext.prepData csvdata with
      | error e => simp [hp] at h
      | ok samples =>
        simp only [hp] at h
        cases hen : ext.encodeSamples samples with
        | error e => simp [hen] at h
        | ok u =>
          simp only [hen] at h
          cases htr : (trainRange ext 0 samples.length).2 with
          | error e => simp [htr, Except.map] at h
          | ok v =>
            refine ⟨samples, rfl, ?_⟩
            have hfst := congrArg Prod.fst h
            simp only at hfst
            have hcalls := trainRange_ok_calls ext samples.length 0
              (trainRange ext 0 samples.length).1 (Prod.ext rfl htr)
            rw [← hfst, hcalls, List.range_eq_range']

/-- Helper: left-biased choice absorbs `none` on the right. -/
theorem optOr_none {α : Type} (a : Option α) : optOr a none = a := by
  cases a <;> rfl

/-- Helper: left-biased choice on options is associative. -/
theorem optOr_assoc {α : Type} (a b c : Option α) :
    optOr (optOr a b) c = optOr a (optOr b c) := by
  cases a <;> rfl

/-- Helper: the left-biased choice is defined when either side is. -/
theorem optOr_isSome {α : Type} (a b : Option α) :
    (optOr a b).isSome = (a.isSome || b.isSome) := by
  cases a <;> simp [optOr]

/-- Helper: string equality tests commute. -/
theorem strBeq_comm (a b : String) : (a == b) = (b == a) := by
  by_cases h : a = b
  · subst h; rfl
  · rw [beq_eq_false_iff_ne.mpr h, beq_eq_false_iff_ne.mpr (Ne.symm h)]

/-- Helper: the key-membership test of `odInsert` agrees with `contains`
over the key list. -/
theorem any_key_eq_contains {α : Type} :
    ∀ (m : List (String × α)) (k : String),
      m.any (fun p => p.1 == k) = (m.map Prod.fst).contains k := by
  intro m k
  induction m with
  | nil => rfl
  | cons p tl ih =>
    rw [List.any_cons, List.map_cons, List.contains_cons, ih, strBeq_comm]

/-- Helper: a key missing from every entry is not found. -/
theorem odFind_none_of_any_false {α : Type} :
    ∀ (m : List (String × α)) (k : String),
      m.any (fun p => p.1 == k) = false → odFind? m k = none := by
  intro m k
  induction m with
  | nil => intro _; rfl
  | cons p tl ih =>
    intro h
    rw [List.any_cons, Bool.or_eq_false_iff] at h
    simp only [odFind?, h.1, Bool.false_eq_true, if_false]
    exact ih h.2

/-- Helper: lookup distributes over appending a single binding. -/
theorem odFind_append_single {α : Type} (k : String) (v : α) :
    ∀ (m : List (String × α)) (j : String),
      odFind? (m ++ [(k, v)]) j = optOr (odFind? m j) (odFind? [(k, v)] j) := by
  intro m j
  induction m with
  | nil => rfl
  | cons p tl ih =>
    cases hb : p.1 == j <;> simp [odFind?, hb, optOr, ih]

/-- Helper: lookup after the in-place update of `odInsert`. -/
theorem odFind_map_update {α : Type} (k : String) (v : α) :
    ∀ (m : List (String × α)) (j : String),
      odFind? (m.map (fun p => if p.1 == k then (k, v) else p)) j =
        if j == k then (if m.any (fun p => p.1 == k) then some v else none)
        else odFind? m j := by
  intro m j
  induction m with
  | nil => by_cases h : j = k <;> simp [odFind?, h]
  | cons p tl ih =>
    by_cases hpk : p.1 = k
    · by_cases hjk : j = k
      · subst hjk
        simp [odFind?, hpk, List.any_cons]
      · have ih' := ih
        simp only [beq_iff_eq] at ih'
        simp [odFind?, hpk, hjk, Ne.symm hjk, List.any_cons, ih']
    · by_cases hpj : p.1 = j
      · have hjk : j ≠ k := fun h => hpk (hpj.trans h)
        simp [odFind?, hpj, hpk, hjk, List.any_cons]
      · have ih' := ih
        simp only [beq_iff_eq] at ih'
        simp [odFind?, hpk, hpj, List.any_cons, ih']
        have hb : (p.1 == k) = false := beq_eq_false_iff_ne.mpr hpk
        rw [hb, Bool.false_or]

/-- Helper: lookup after `odInsert` sees the new value at the inserted key
and is unchanged elsewhere. -/
theorem odFind_odInsert {α : Type} (m : List (String × α)) (k : String) (v : α)
    (j : String) :
    odFind? (odInsert m k v) j = if j == k then some v else odFind? m j := by
  unfold odInsert
  cases hany : m.any (fun p => p.1 == k) with
  | true =>
    simp only [hany, if_true]
    rw [odFind_map_update k v m j, hany]
    simp
  | false =>
    simp only [hany, Bool.false_eq_true, if_false]
    rw [odFind_append_single k v m j]
    by_cases hjk : j = k
    · subst hjk
      rw [odFind_none_of_any_false m j hany]
      simp [odFind?, optOr]
    · simp [odFind?, hjk, Ne.symm hjk, optOr_none]

/-- Helper: the keys after `odInsert`: unchanged when the key is present,
appended when fresh. -/
theorem keys_odInsert {α : Type} (m : List (String × α)) (k : String) (v : α) :
    (odInsert m k v).map Prod.fst =
      if (m.map Prod.fst).contains k then m.map Prod.fst
      else m.map Prod.fst ++ [k] := by
  unfold odInsert
  rw [any_key_eq_contains]
  cases hc : (m.map Prod.fst).contains k with
  | true =>
    simp only [hc, if_true]
    rw [List.map_map]
    apply List.map_congr_left
    intro p _
    by_cases h : p.1 = k <;> simp [h]
  | false =>
    simp only [hc, Bool.false_eq_true, if_false]
    simp

/-- Helper: the keys of the corpus fold are the first-seen key fold of the
rows, for any starting mapping. -/
theorem keys_foldl_firstSeen :
    ∀ (rows : List CsvSample) (m : List (String × String)),
      ((rows.foldl (fun m r => odInsert m r.sid r.text) m).map Prod.fst) =
        rows.foldl (fun acc r => if acc.contains r.sid then acc else acc ++ [r.sid])
          (m.map Prod.fst) := by
  intro rows
  induction rows with
  | nil => intro m; rfl
  | cons r rows ih =>
    intro m
    simp only [List.foldl_cons]
    rw [ih (odInsert m r.sid r.text), keys_odInsert]

/-- C2: against a wrapper built by the constructor, a POST with an empty
body on a registered model performs no engine query and returns every
corpus sample as id, text and score 0, one entry per sample, and the
listing's ids are the source ids in first-seen order. -/
theorem post_empty_body_lists_corpus (ext : Ext) (csvdata : List CsvSample)
    (w : FluentWrapper) (modelName : String)
    (hw : initFluentWrapper ext csvdata = Except.ok w)
    (hm : (odFind? w.models modelName).isSome = true) :
    FluentAPIHandler.POST w modelName (Body.ofString "") =
      ([], HttpOutcome.ok
        (w.samples.map (fun p => { sid := p.1, text := p.2, score := 0 }))) ∧
      w.samples.map Prod.fst = firstSeenKeys csvdata := by
  have hsamples : w.samples = buildSamples csvdata := by
    unfold initFluentWrapper at hw
    cases hbm : buildModels ext csvdata MODEL_MAPPING with
    | error e => rw [hbm] at hw; exact absurd hw (by simp)
    | ok ms =>
      rw [hbm] at hw
      injection hw with h
      rw [← h]
  constructor
  · have hnone : (odFind? w.models modelName).isNone = false := by
      cases hfind : odFind? w.models modelName with
      | none => rw [hfind] at hm; simp at hm
      | some e => rfl
    unfold FluentAPIHandler.POST
    simp only [hnone, Bool.false_eq_true, if_false, Body.isTruthy,
      bne_self_eq_false]
  · rw [hsamples]
    unfold buildSamples firstSeenKeys
    exact keys_foldl_firstSeen csvdata []

/-- Witness for C2: the constructor over the two-row corpus, queried with
an empty body against `CioWindows`. -/
theorem post_empty_body_lists_corpus_witness :
    initFluentWrapper witExt witRows = Except.ok witW ∧
      (odFind? witW.models "CioWindows").isSome = true ∧
      (FluentAPIHandler.POST witW "CioWindows" (Body.ofString "") =
        ([], HttpOutcome.ok
          (witW.samples.map (fun p => { sid := p.1, text := p.2, score := 0 }))) ∧
        witW.samples.map Prod.fst = firstSeenKeys witRows) :=
  ⟨rfl, rfl, post_empty_body_lists_corpus witExt witRows witW "CioWindows" rfl rfl⟩

/-- Helper: the last-text accumulator fold factors through `optOr`. -/
theorem lastTextFor_acc (j : String) :
    ∀ (rows : List CsvSample) (acc : Option String),
      rows.foldl (fun a r => if r.sid == j then some r.text else a) acc =
        optOr (lastTextFor rows j) acc := by
  intro rows
  induction rows with
  | nil => intro acc; simp [lastTextFor, optOr]
  | cons r rows ih =>
    intro acc
    simp only [List.foldl_cons, lastTextFor]
    rw [ih (if r.sid == j then some r.text else acc),
      ih (if r.sid == j then some r.text else none), optOr_assoc]
    congr 1
    cases hb : r.sid == j <;> simp [hb, optOr]

/-- Helper: looking a key up in the corpus fold yields the last text bound
to it in the rows, else falls back to the starting mapping. -/
theorem odFind_buildSamples_aux (j : String) :
    ∀ (rows : List CsvSample) (m : List (String × String)),
      odFind? (rows.foldl (fun m r => odInsert m r.sid r.text) m) j =
        optOr (lastTextFor rows j) (odFind? m j) := by
  intro rows
  induction rows with
  | nil => intro m; simp [lastTextFor, optOr]
  | cons r rows ih =>
    intro m
    simp only [List.foldl_cons]
    rw [ih (odInsert m r.sid r.text), odFind_odInsert]
    have hunf : lastTextFor (r :: rows) j =
        optOr (lastTextFor rows j) (if r.sid == j then some r.text else none) := by
      simp only [lastTextFor, List.foldl_cons]
      exact lastTextFor_acc j rows _
    rw [hunf, optOr_assoc]
    congr 1
    by_cases h : j = r.sid
    · subst h; simp [optOr]
    · simp [h, Ne.symm h, optOr]

/-- Helper: the Corpus Store maps each id to the text of the last source
row bearing it. -/
theorem buildSamples_lookup (rows : List CsvSample) (j : String) :
    odFind? (buildSamples rows) j = lastTextFor rows j := by
  have h := odFind_buildSamples_aux j rows []
  simpa [buildSamples, odFind?, optOr_none] using h

/-- Helper: the corpus fold preserves distinctness of keys. -/
theorem nodup_keys_foldl :
    ∀ (rows : List CsvSample) (m : List (String × String)),
      ((m.map Prod.fst).Nodup) →
      (((rows.foldl (fun m r => odInsert m r.sid r.text) m).map Prod.fst).Nodup) := by
  intro rows
  induction rows with
  | nil => intro m h; exact h
  | cons r rows ih =>
    intro m h
    simp only [List.foldl_cons]
    apply ih
    rw [keys_odInsert]
    cases hc : (m.map Prod.fst).contains r.sid with
    | true => simpa [hc] using h
    | false =>
      have hmem : r.sid ∉ m.map Prod.fst := by simpa using hc
      simp only [hc, Bool.false_eq_true, if_false]
      simp [List.nodup_append, h, hmem]

/-- Helper: a row with id `i` guarantees a last text for `i`. -/
theorem lastTextFor_isSome :
    ∀ (rows : List CsvSample) (i : String), (∃ r ∈ rows, r.sid = i) →
      (lastTextFor rows i).isSome = true := by
  intro rows
  induction rows with
  | nil => intro i ⟨r, hr, _⟩; exact absurd hr (List.not_mem_nil r)
  | cons r rows ih =>
    intro i hex
    have hunf : lastTextFor (r :: rows) i =
        optOr (lastTextFor rows i) (if r.sid == i then some r.text else none) := by
      simp only [lastTextFor, List.foldl_cons]
      exact lastTextFor_acc i rows _
    rw [hunf, optOr_isSome]
    obtain ⟨r', hr', hsid⟩ := hex
    rcases List.mem_cons.mp hr' with rfl | hmem
    · simp [hsid]
    · simp [ih i ⟨r', hmem, hsid⟩]

/-- Helper: a successful lookup means the key is among the mapping's keys. -/
theorem odFind_isSome_mem {α : Type} :
    ∀ (m : List (String × α)) (j : String),
      (odFind? m j).isSome = true → j ∈ m.map Prod.fst := by
  intro m j
  induction m with
  | nil => intro h; simp [odFind?] at h
  | cons p tl ih =>
    intro h
    by_cases hb : p.1 = j
    · exact List.mem_cons.mpr (Or.inl hb.symm)
    · refine List.mem_cons.mpr (Or.inr (ih ?_))
      simpa [odFind?, hb] using h

/-- C10: when the source rows carry an id two or more times, the Corpus
Store still has pairwise-distinct keys, holds exactly one entry for that
id, and maps it to the text of the last row bearing it. -/
theorem buildSamples_dup_id_last_wins (rows : List CsvSample) (i : String)
    (hdup : 2 ≤ (rows.filter (fun r => r.sid == i)).length) :
    ((buildSamples rows).map Prod.fst).Nodup ∧
      ((buildSamples rows).map Prod.fst).count i = 1 ∧
      odFind? (buildSamples rows) i = lastTextFor rows i := by
  have hnodup : ((buildSamples rows).map Prod.fst).Nodup :=
    nodup_keys_foldl rows [] (by simp)
  have hlook := buildSamples_lookup rows i
  refine ⟨hnodup, ?_, hlook⟩
  have hex : ∃ r ∈ rows, r.sid = i := by
    have hpos : 0 < (rows.filter (fun r => r.sid == i)).length :=
      lt_of_lt_of_le (by decide) hdup
    obtain ⟨r, hr⟩ := List.exists_mem_of_length_pos hpos
    exact ⟨r, (List.mem_filter.mp hr).1, by simpa using (List.mem_filter.mp hr).2⟩
  have hmem : i ∈ (buildSamples rows).map Prod.fst := by
    apply odFind_isSome_mem
    rw [hlook]
    exact lastTextFor_isSome rows i hex
  exact Nat.le_antisymm (List.nodup_iff_count_le_one.mp hnodup i)
    (List.count_pos_iff.mpr hmem)

/-- Witness for C10 on a three-row corpus whose id `x` occurs twice. -/
theorem buildSamples_dup_id_last_wins_witness :
    2 ≤ (witDupRows.filter (fun r => r.sid == "x")).length ∧
      (((buildSamples witDupRows).map Prod.fst).Nodup ∧
        ((buildSamples witDupRows).map Prod.fst).count "x" = 1 ∧
        odFind? (buildSamples witDupRows) "x" = lastTextFor witDupRows "x") :=
  ⟨by decide, buildSamples_dup_id_last_wins witDupRows "x" (by decide)⟩

/-- Witness for C9: the successful build of `CioWindows` over the two-row
corpus performs construct, prepData, encodeSamples, then trainModel 0 and
trainModel 1. -/
theorem createModel_trains_in_order_witness :
    ("CioWindows" ≠ "HTMNetwork") ∧
      createModel witExt "CioWindows" witRows =
        ([ExtCall.construct "CioWindows", ExtCall.prepData witRows,
          ExtCall.encodeSamples ["the cat sat", "the dog ran"],
          ExtCall.trainModel 0, ExtCall.trainModel 1], Except.ok witEngine) ∧
      ∃ samples, witExt.prepData witRows = Except.ok samples ∧
        ([ExtCall.construct "CioWindows", ExtCall.prepData witRows,
          ExtCall.encodeSamples ["the cat sat", "the dog ran"],
          ExtCall.trainModel 0, ExtCall.trainModel 1] : List ExtCall) =
          ExtCall.construct "CioWindows" :: ExtCall.prepData witRows ::
            ExtCall.encodeSamples samples ::
            (List.range samples.length).map ExtCall.trainModel :=
  ⟨by decide, rfl,
    createModel_trains_in_order witExt "CioWindows" witRows _ witEngine
      (by decide) rfl⟩

end Imbu
